import Mathlib

set_option linter.unusedVariables false

/-!
Shallow embedding of the collision-aware grid layout algorithm of
src/src/lib/GridItem.svelte, together with the collision utilities
(utils/grid.ts, utils/item.ts) that the component imports.  The component
source is embedded directly; the imported utilities are not part of the
source tree and are modelled from the specification (spec.md §4.1-§4.4).

Items live on an integer grid; JS numbers are modelled as Int.  The
authoritative item collection (an id-keyed object in the source, mutated
in place through shared references) is modelled as a list of records;
in-place mutation of an item becomes an id-keyed functional update of the
list, which is faithful whenever ids are distinct (the spec requires ids
to be unique).
-/

/-- Width/height pair in grid units (the Size type of the source). -/
structure Size where
  w : Int
  h : Int
deriving DecidableEq, Repr

/-- Pixel size of one grid cell (the ItemSize type of the source). -/
structure ItemSize where
  width : Int
  height : Int
deriving DecidableEq, Repr

/-- The item object registered in the grid (GridItem.svelte, lines 95-106).
The invalidate callback is event plumbing and carries no layout state. -/
structure LayoutItem where
  id : Nat
  x : Int
  y : Int
  w : Int
  h : Int
  min : Size
  max : Option Size
  movable : Bool
  resizable : Bool
deriving DecidableEq, Repr

/-- Modelled from the spec: utils/grid.ts is absent from src; spec §4.2
defines overlap as strict-inequality intersection of half-open rectangles:
a.x < b.x+b.w ∧ b.x < a.x+a.w ∧ a.y < b.y+b.h ∧ b.y < a.y+a.h. -/
def overlaps (a b : LayoutItem) : Bool :=
  decide (a.x < b.x + b.w) && decide (b.x < a.x + a.w) &&
    decide (a.y < b.y + b.h) && decide (b.y < a.y + a.h)

/-- Modelled from the spec: utils/grid.ts hasCollisions; true iff some item
with a different id overlaps the candidate (spec §4.2). -/
def hasCollisions (candidate : LayoutItem) (items : List LayoutItem) : Bool :=
  items.any (fun i => decide (i.id ≠ candidate.id) && overlaps i candidate)

/-- Modelled from the spec: utils/grid.ts getCollisions; all items with a
different id overlapping the candidate, in list order (spec §4.2). -/
def getCollisions (candidate : LayoutItem) (items : List LayoutItem) : List LayoutItem :=
  items.filter (fun i => decide (i.id ≠ candidate.id) && overlaps i candidate)

/-- Closed integer interval [lo, hi] as a list, empty when hi < lo. -/
def intRange (lo hi : Int) : List Int :=
  (List.range (hi - lo + 1).toNat).map (fun n => lo + (n : Int))

/-- Right-most occupied column bound of an item set. -/
def maxRight (items : List LayoutItem) : Int :=
  items.foldl (fun m i => max m (i.x + i.w)) 0

/-- Bottom-most occupied row bound of an item set. -/
def maxBottom (items : List LayoutItem) : Int :=
  items.foldl (fun m i => max m (i.y + i.h)) 0

/-- Modelled from the spec: utils/grid.ts getAvailablePosition (the
Free-Slot Search of spec §4.3).  Scans rows in increasing order and, inside
a row, columns in increasing order, returning the first position where the
item (same w,h) has no collision and respects x+w ≤ maxCols / y+h ≤ maxRows
when those bounds are given.  When a bound is absent the scan is cut off at
the first row/column beyond every existing item, where a slot always
exists, so the cutoff does not change the result of the infinite row-major
scan described by the spec. -/
def getAvailablePosition (it : LayoutItem) (items : List LayoutItem)
    (maxCols maxRows : Option Int) : Option (Int × Int) :=
  let colHi : Int := match maxCols with
    | some c => c - it.w
    | none => maxRight items
  let rowHi : Int := match maxRows with
    | some r => r - it.h
    | none => maxBottom items
  let cells := (intRange 0 rowHi).flatMap (fun row => (intRange 0 colHi).map (fun col => (col, row)))
  cells.find? (fun p => !hasCollisions { it with x := p.1, y := p.2 } items)

theorem overlaps_comm (a b : LayoutItem) : overlaps a b = overlaps b a := by
  simp only [overlaps]
  rw [show ∀ p q r s : Bool, (p && q && r && s) = (q && p && s && r) from by decide]

/-- overlaps only reads the rectangle fields. -/
theorem overlaps_rect (a a' b : LayoutItem) (hx : a.x = a'.x) (hy : a.y = a'.y)
    (hw : a.w = a'.w) (hh : a.h = a'.h) : overlaps a b = overlaps a' b := by
  simp only [overlaps, hx, hy, hw, hh]

/-- A slot returned by the free-slot search is collision-free there. -/
theorem getAvailablePosition_free (it : LayoutItem) (items : List LayoutItem)
    (maxCols maxRows : Option Int) (px py : Int)
    (h : getAvailablePosition it items maxCols maxRows = some (px, py)) :
    hasCollisions { it with x := px, y := py } items = false := by
  unfold getAvailablePosition at h
  have := List.find?_some h
  simpa using this

/-- Membership consequence of hasCollisions = false. -/
theorem not_hasCollisions_mem {candidate : LayoutItem} {items : List LayoutItem}
    (h : hasCollisions candidate items = false) :
    ∀ i ∈ items, i.id ≠ candidate.id → overlaps i candidate = false := by
  intro i hi hne
  unfold hasCollisions at h
  rw [List.any_eq_false] at h
  have := h i hi
  simp only [Bool.and_eq_true, decide_eq_true_eq, not_and] at this
  have := this hne
  simpa using this

/-!  Push-mode resolution (GridItem.svelte lines 252-294, 567-570). -/

/-- The optional newAttributes record of
handleCollisionsForPreviewItemWithPush (lines 268-273). -/
structure NewAttributes where
  x : Option Int := none
  y : Option Int := none
  w : Option Int := none
  h : Option Int := none
deriving DecidableEq, Repr

/-- The JS spread { ...previewItem, ...newAttributes }. -/
def applyAttrs (it : LayoutItem) (na : NewAttributes) : LayoutItem :=
  { it with
    x := na.x.getD it.x
    y := na.y.getD it.y
    w := na.w.getD it.w
    h := na.h.getD it.h }

/-- The temporary item set built for one colliding item (lines 279-283):
all current items except the colliding item, except the preview item,
plus the candidate carrying the new attributes. -/
def pushTempSet (gridItems : List LayoutItem) (collId previewId : Nat)
    (candidate : LayoutItem) : List LayoutItem :=
  (gridItems.filter (fun i => decide (i.id ≠ collId))).filter
      (fun i => decide (i.id ≠ previewId)) ++ [candidate]

/-- updateCollItemPositionWithPush (lines 252-266): run the free-slot
search over the supplied set; on success assign the found x,y to the
colliding item (an in-place mutation of the shared object, modelled as an
id-keyed update of the state list); on failure leave everything unchanged. -/
def updateCollItemPositionWithPush (maxCols maxRows : Option Int)
    (st : List LayoutItem) (collItem : LayoutItem)
    (searchItems : List LayoutItem) : List LayoutItem :=
  match getAvailablePosition collItem searchItems maxCols maxRows with
  | some (px, py) =>
      st.map (fun i => if i.id = collItem.id then { i with x := px, y := py } else i)
  | none => st

/-- One iteration of the collItems.forEach of lines 278-285. -/
def pushRelocateStep (maxCols maxRows : Option Int) (previewId : Nat)
    (candidate : LayoutItem) (st : List LayoutItem) (collItem : LayoutItem) :
    List LayoutItem :=
  updateCollItemPositionWithPush maxCols maxRows st collItem
    (pushTempSet st collItem.id previewId candidate)

/-- applyPreview (lines 156-162): write the preview's x,y,w,h into the
authoritative item carrying the preview's id. -/
def applyPreview (previewItem : LayoutItem) (st : List LayoutItem) : List LayoutItem :=
  st.map (fun i =>
    if i.id = previewItem.id then
      { i with x := previewItem.x, y := previewItem.y, w := previewItem.w, h := previewItem.h }
    else i)

/-- Result of one push-mode candidate update: the authoritative item list
and the new preview item. -/
structure PushOutcome where
  items : List LayoutItem
  previewItem : LayoutItem
deriving DecidableEq, Repr

/-- handleCollisionsForPreviewItemWithPush (lines 268-290): collect the
colliders of the candidate among the items other than the preview, process
them sequentially (the live array is mutated in place, so each step sees
the relocations of the previous ones), update the preview to the candidate
and apply it to the authoritative item. -/
def handleCollisionsForPreviewItemWithPush (maxCols maxRows : Option Int)
    (gridItems : List LayoutItem) (previewItem : LayoutItem)
    (na : NewAttributes) : PushOutcome :=
  let itemsExceptPreview := gridItems.filter (fun i => decide (i.id ≠ previewItem.id))
  let candidate := applyAttrs previewItem na
  let collItems := getCollisions candidate itemsExceptPreview
  let st := collItems.foldl (pushRelocateStep maxCols maxRows previewItem.id candidate) gridItems
  { items := applyPreview candidate st, previewItem := candidate }

/-- Companion fold that also records whether every free-slot search of the
run succeeded; its first component coincides with the plain fold. -/
def pushRelocateStepOk (maxCols maxRows : Option Int) (previewId : Nat)
    (candidate : LayoutItem) (p : List LayoutItem × Bool) (collItem : LayoutItem) :
    List LayoutItem × Bool :=
  match getAvailablePosition collItem (pushTempSet p.1 collItem.id previewId candidate)
      maxCols maxRows with
  | some (px, py) =>
      (p.1.map (fun i => if i.id = collItem.id then { i with x := px, y := py } else i), p.2)
  | none => (p.1, false)

/-- True when every colliding item of this candidate update is successfully
relocated by the free-slot search (no placement exhaustion). -/
def pushAllRelocationsSucceed (maxCols maxRows : Option Int)
    (gridItems : List LayoutItem) (previewItem : LayoutItem)
    (na : NewAttributes) : Bool :=
  let itemsExceptPreview := gridItems.filter (fun i => decide (i.id ≠ previewItem.id))
  let candidate := applyAttrs previewItem na
  let collItems := getCollisions candidate itemsExceptPreview
  (collItems.foldl (pushRelocateStepOk maxCols maxRows previewItem.id candidate)
    (gridItems, true)).2

/-- A sequence of committed push-mode candidate updates (one per accepted
pointer sample), threading the authoritative list and the preview. -/
def pushRun (maxCols maxRows : Option Int) :
    List NewAttributes → List LayoutItem × LayoutItem → List LayoutItem × LayoutItem
  | [], s => s
  | na :: rest, (st, preview) =>
      let o := handleCollisionsForPreviewItemWithPush maxCols maxRows st preview na
      pushRun maxCols maxRows rest (o.items, o.previewItem)

/-- Every relocation of every step of the run succeeds. -/
def pushRunAllSucceed (maxCols maxRows : Option Int) :
    List NewAttributes → List LayoutItem × LayoutItem → Bool
  | [], _ => true
  | na :: rest, (st, preview) =>
      pushAllRelocationsSucceed maxCols maxRows st preview na &&
        let o := handleCollisionsForPreviewItemWithPush maxCols maxRows st preview na
        pushRunAllSucceed maxCols maxRows rest (o.items, o.previewItem)

/-- No two items with distinct ids overlap. -/
def pairwiseNoOverlap (st : List LayoutItem) : Prop :=
  ∀ a ∈ st, ∀ b ∈ st, a.id ≠ b.id → overlaps a b = false

instance (st : List LayoutItem) : Decidable (pairwiseNoOverlap st) := by
  unfold pairwiseNoOverlap; infer_instance

/-!  Compress-mode resolution (GridItem.svelte lines 296-338, 572-591, 608-652). -/

/-- Stable insertion for ascending sort by y (ties keep list order). -/
def insertAscByY (it : LayoutItem) : List LayoutItem → List LayoutItem
  | [] => [it]
  | b :: rest => if it.y < b.y then it :: b :: rest else b :: insertAscByY it rest

/-- The stable JS sort (a, b) => a.y - b.y of line 610. -/
def sortAscByY (l : List LayoutItem) : List LayoutItem :=
  l.foldl (fun acc it => insertAscByY it acc) []

/-- Stable insertion for descending sort by y (ties keep list order). -/
def insertDescByY (it : LayoutItem) : List LayoutItem → List LayoutItem
  | [] => [it]
  | b :: rest => if it.y > b.y then it :: b :: rest else b :: insertDescByY it rest

/-- The stable JS sort (a, b) => b.y - a.y of line 303. -/
def sortDescByY (l : List LayoutItem) : List LayoutItem :=
  l.foldl (fun acc it => insertDescByY it acc) []

/-- Current version of the item with the given id (the source reads the
shared object directly; the model looks it up in the state list). -/
def findById (st : List LayoutItem) (i : Nat) : Option LayoutItem :=
  st.find? (fun a => decide (a.id = i))

/-- The inner sortedItems.forEach of lines 310-318: slide each collider up
by the preview's height when that spot is free and stays on the grid.
Checks read the live array, so earlier shifts are visible to later ones. -/
def shiftSiblingsUp (previewH : Int) (pid : Nat) (ids : List Nat)
    (st : List LayoutItem) : List LayoutItem :=
  ids.foldl (fun cur i =>
    match findById cur i with
    | none => cur
    | some it =>
        if !hasCollisions { it with y := it.y - previewH }
              (cur.filter (fun a => decide (a.id ≠ pid))) &&
            decide (it.y - previewH ≥ 0) then
          cur.map (fun a => if a.id = i then { a with y := a.y - previewH } else a)
        else cur) st

/-- The outer sortedItems.forEach of lines 305-321.  JS forEach ignores the
inner return, so every collider whose centre is at or above the requested
centre fires: it marks moved, overwrites newY with its current bottom edge
and runs the sibling shift.  The below-centre test divides by two in JS;
both sides are doubled here, which is exact.  State is
(moved, newY, items). -/
def compressMovedStep (preview : LayoutItem) (origY : Int) (pid : Nat)
    (allIds : List Nat) (acc : Bool × Int × List LayoutItem) (i : Nat) :
    Bool × Int × List LayoutItem :=
  match findById acc.2.2 i with
  | none => acc
  | some sortItem =>
      if 2 * origY + preview.h ≥ 2 * sortItem.y + sortItem.h then
        (true, sortItem.y + sortItem.h, shiftSiblingsUp preview.h pid allIds acc.2.2)
      else acc

/-- The whole outer forEach, folding the step over the sorted id list. -/
def compressMovedPass (preview : LayoutItem) (origY : Int) (pid : Nat)
    (ids : List Nat) (init : Bool × Int × List LayoutItem) :
    Bool × Int × List LayoutItem :=
  ids.foldl (compressMovedStep preview origY pid ids) init

/-- The body of the while loop of lines 300-328 for a non-negative probe
row, indexed structurally by the row as a Nat: at the first row with
collisions run the moved pass and stop (falling back to the preview's
current y when nothing passed the below-centre test); when a probed row is
collision-free keep decrementing, ending at -1 below row 0. -/
def compressProbeHit (preview : LayoutItem) (x origY : Int)
    (st : List LayoutItem) (row : Int) : Int × List LayoutItem :=
  let collItems := getCollisions { preview with x := x, y := row } st
  let sortedIds := (sortDescByY collItems).map (fun i => i.id)
  let r := compressMovedPass preview origY preview.id sortedIds (false, row, st)
  if r.1 then (r.2.1, r.2.2) else (preview.y, r.2.2)

/-- Row scanning of the probe loop, structurally on the row number. -/
def compressProbeRows (preview : LayoutItem) (x origY : Int)
    (st : List LayoutItem) : Nat → Int × List LayoutItem
  | 0 =>
      if (getCollisions { preview with x := x, y := (0 : Int) } st).isEmpty then (-1, st)
      else compressProbeHit preview x origY st 0
  | n + 1 =>
      if (getCollisions { preview with x := x, y := ((n : Int) + 1) } st).isEmpty then
        compressProbeRows preview x origY st n
      else compressProbeHit preview x origY st ((n : Int) + 1)

/-- The while loop of lines 300-328: runs only when the starting row is
non-negative (the JS condition newY >= 0), otherwise returns its inputs. -/
def compressProbeLoop (preview : LayoutItem) (x origY : Int) (newY : Int)
    (st : List LayoutItem) : Int × List LayoutItem :=
  if newY < 0 then (newY, st)
  else compressProbeRows preview x origY st newY.toNat

/-- The body of the while loop of lines 622-627 and 635-640 for a
non-negative start row, indexed structurally by the row as a Nat: scan
downward, stopping at the first row that collides with the settled set,
or at -1 when none does. -/
def descendRows (cur : LayoutItem) (acc : List LayoutItem) : Nat → Int
  | 0 => if hasCollisions { cur with y := 0 } acc then 0 else -1
  | n + 1 =>
      if hasCollisions { cur with y := ((n : Int) + 1) } acc then ((n : Int) + 1)
      else descendRows cur acc n

/-- The while loop of lines 622-627 and 635-640: runs only when the start
row is non-negative (the JS condition newY >= 0), otherwise returns it. -/
def descendWhileFree (cur : LayoutItem) (acc : List LayoutItem) (newY : Int) : Int :=
  if newY < 0 then newY
  else descendRows cur acc newY.toNat

/-- One step of the reduce of compressItems (lines 611-649): skip the
preview; fold every other item into the settled accumulator, re-seating it
just below the first row (scanning downward) that collides with the
settled set. -/
def compressStep (preview : LayoutItem) (acc : List LayoutItem)
    (cur : LayoutItem) : List LayoutItem :=
  if cur.id = preview.id then acc
  else if preview.y < cur.y + cur.h then
    let maxY := if cur.y ≥ preview.y then cur.y + preview.h + 1 else preview.y + cur.h + 1
    let newY := descendWhileFree cur acc maxY
    acc ++ [{ cur with y := newY + 1 }]
  else
    let newY := descendWhileFree cur acc cur.y
    if newY < cur.y ∧ newY > 0 then acc ++ [{ cur with y := newY + 1 }]
    else acc ++ [cur]

/-- compressItems (lines 608-652): sort the authoritative items by
ascending y (stable) and reduce them over the settled accumulator seeded
with the preview item; only y is ever assigned.  The resulting state keeps
the original collection order with the updated y values. -/
def compressItems (preview : LayoutItem) (st : List LayoutItem) : List LayoutItem :=
  let sorted := sortAscByY st
  let accFinal := sorted.foldl (compressStep preview) [preview]
  st.map (fun i =>
    if i.id = preview.id then i
    else
      match findById accFinal i.id with
      | some a => { i with y := a.y }
      | none => i)

/-- Result of one compress-mode candidate update. -/
structure CompressOutcome where
  items : List LayoutItem
  previewItem : LayoutItem
deriving DecidableEq, Repr

/-- movePreviewWithCollisionsWithCompress (lines 296-338): run the probe
loop from the requested y, clamp the settled row at 0, and when the
position changed run the global compaction pass and apply the preview. -/
def movePreviewWithCollisionsWithCompress (x y : Int) (st : List LayoutItem)
    (preview : LayoutItem) : CompressOutcome :=
  let r := compressProbeLoop preview x y y st
  let newY : Int := if r.1 < 0 ∨ y = 0 then 0 else r.1
  let st1 := r.2
  let positionChanged : Bool := decide (x ≠ preview.x) || decide (newY ≠ preview.y)
  let preview2 := { preview with x := x, y := newY }
  if positionChanged then
    let st2 := compressItems preview2 st1
    { items := applyPreview preview2 st2, previewItem := preview2 }
  else
    { items := st1, previewItem := preview2 }

/-!  Snap resolver and coordinate mapper (utils/item.ts, absent from src),
and the move/resize interaction handlers (GridItem.svelte lines 208-250,
407-599). -/

/-- Math.round of the rational a / b for b > 0 (floor of a/b + 1/2). -/
def jsRound (a b : Int) : Int := Int.fdiv (2 * a + b) (2 * b)

/-- Modelled from the spec: utils/item.ts pixel-to-grid conversion
(spec §4.1): round((pixels + gap) / (cellSize + gap)), floored at the
configured minimum (0 for positions, 1 for sizes). -/
def pixelsToUnits (pixels cellSize gap minUnits : Int) : Int :=
  max minUnits (jsRound (pixels + gap) (cellSize + gap))

/-- Modelled from the spec: utils/item.ts snapOnMove (spec §4.4): nearest
grid cell of a pixel top-left corner, floored at 0 per axis. -/
def snapOnMove (left top : Int) (item : LayoutItem) (itemSize : ItemSize)
    (gap : Int) : Int × Int :=
  (pixelsToUnits left itemSize.width gap 0, pixelsToUnits top itemSize.height gap 0)

/-- Modelled from the spec: utils/item.ts snapOnResize (spec §4.4): nearest
grid size of a pixel size, floored at 1 per axis. -/
def snapOnResize (width height : Int) (item : LayoutItem) (itemSize : ItemSize)
    (gap : Int) : Int × Int :=
  (pixelsToUnits width itemSize.width gap 1, pixelsToUnits height itemSize.height gap 1)

/-- Modelled from the spec: utils/item.ts coordinate2size (unitsToPixels of
spec §4.1): n·cellSize + max(0, n-1)·gap. -/
def coordinate2size (n cellSize gap : Int) : Int :=
  n * cellSize + max 0 (n - 1) * gap

/-- The collision mode of the grid context. -/
inductive Collision
  | push
  | compress
  | none
deriving DecidableEq, Repr

/-- A DOMRect as returned by boundsTo.getBoundingClientRect(). -/
structure Rect where
  left : Int
  top : Int
  right : Int
  bottom : Int
deriving DecidableEq, Repr

/-- The grid context consumed by the item (read-only, spec §6). -/
structure GridParams where
  items : List LayoutItem
  itemSize : Option ItemSize
  gap : Int
  maxCols : Option Int
  maxRows : Option Int
  collision : Collision
  bounds : Bool
  boundsTo : Option Rect
  readOnly : Bool

/-- movePreviewWithCollisions (lines 340-346): compress dispatches to the
compress handler, every other mode to the push handler. -/
def movePreviewWithCollisions (maxCols maxRows : Option Int) (coll : Collision)
    (x y : Int) (st : List LayoutItem) (preview : LayoutItem) :
    List LayoutItem × LayoutItem :=
  match coll with
  | Collision.compress =>
      let o := movePreviewWithCollisionsWithCompress x y st preview
      (o.items, o.previewItem)
  | _ =>
      let o := handleCollisionsForPreviewItemWithPush maxCols maxRows st preview
        { x := some x, y := some y }
      (o.items, o.previewItem)

/-- Result of one pointer-move sample. -/
structure MoveOutcome where
  left : Int
  top : Int
  items : List LayoutItem
  previewItem : LayoutItem
deriving DecidableEq, Repr

/-- move (lines 208-250): the per-pointer-move handler.  Throws when the
grid context has no itemSize yet; otherwise derives the pixel position,
clamps it to the bounds rectangle when configured, snaps it to grid units
and dispatches on the collision mode; in mode none the candidate is
committed to the preview only when it has no collisions. -/
def move (gp : GridParams) (ippLeft ippTop ipLeft ipTop width height : Int)
    (preview : LayoutItem) (pageX pageY : Int) : Except String MoveOutcome :=
  match gp.itemSize with
  | Option.none => Except.error "Grid is not mounted yet"
  | some itemSize =>
      let l0 := pageX - ippLeft + ipLeft
      let t0 := pageY - ippTop + ipTop
      let clamped : Int × Int :=
        match gp.bounds, gp.boundsTo with
        | true, some parentRect =>
            let la := if l0 < parentRect.left then parentRect.left else l0
            let ta := if t0 < parentRect.top then parentRect.top else t0
            let lb := if la + width > parentRect.right then parentRect.right - width else la
            let tb := if ta + height > parentRect.bottom then parentRect.bottom - height else ta
            (lb, tb)
        | _, _ => (l0, t0)
      let left := clamped.1
      let top := clamped.2
      let xy := snapOnMove left top preview itemSize gp.gap
      match gp.collision with
      | Collision.none =>
          if hasCollisions { preview with x := xy.1, y := xy.2 } gp.items then
            Except.ok { left := left, top := top, items := gp.items, previewItem := preview }
          else
            Except.ok { left := left, top := top, items := gp.items,
                        previewItem := { preview with x := xy.1, y := xy.2 } }
      | c =>
          let r := movePreviewWithCollisions gp.maxCols gp.maxRows c xy.1 xy.2 gp.items preview
          Except.ok { left := left, top := top, items := r.1, previewItem := r.2 }

/-- The resize-handle direction token (spec §6). -/
inductive ResizeDirection
  | se
  | sw
  | ne
  | nw
deriving DecidableEq, Repr

/-- resizeDirection.includes of a west handle. -/
def dirHasW : ResizeDirection → Bool
  | ResizeDirection.sw => true
  | ResizeDirection.nw => true
  | _ => false

/-- resizeDirection.includes of a north handle. -/
def dirHasN : ResizeDirection → Bool
  | ResizeDirection.ne => true
  | ResizeDirection.nw => true
  | _ => false

/-- resizePreviewWithCollisionsWithPush (lines 567-570). -/
def resizePreviewWithCollisionsWithPush (maxCols maxRows : Option Int)
    (left top : Int) (itemSize : ItemSize) (gap : Int) (st : List LayoutItem)
    (preview : LayoutItem) (w h : Int) : List LayoutItem × LayoutItem :=
  let xy := snapOnMove left top preview itemSize gap
  let o := handleCollisionsForPreviewItemWithPush maxCols maxRows st preview
    { x := some xy.1, y := some xy.2, w := some w, h := some h }
  (o.items, o.previewItem)

/-- resizePreviewWithCollisionsWithCompress (lines 572-591): when the
snapped geometry changed, apply the preview, shift every item overlapping
the resized column band (h = 9999) by the height delta, and run the global
compaction pass. -/
def resizePreviewWithCollisionsWithCompress (left top : Int) (itemSize : ItemSize)
    (gap : Int) (st : List LayoutItem) (preview : LayoutItem) (w h : Int) :
    List LayoutItem × LayoutItem :=
  let xy := snapOnMove left top preview itemSize gap
  let changed : Bool := decide (w ≠ preview.w) || decide (h ≠ preview.h) ||
    decide (xy.1 ≠ preview.x) || decide (xy.2 ≠ preview.y)
  if changed then
    let hGap := h - preview.h
    let preview2 := { preview with x := xy.1, y := xy.2, w := w, h := h }
    let st1 := applyPreview preview2 st
    let collItems := getCollisions { preview2 with w := w, h := 9999 } st1
    let st2 := collItems.foldl
      (fun s c => s.map (fun i => if i.id = c.id then { i with y := i.y + hGap } else i)) st1
    let st3 := compressItems preview2 st2
    (st3, preview2)
  else (st, preview)

/-- Result of one pointer-resize sample. -/
structure ResizeOutcome where
  left : Int
  top : Int
  width : Int
  height : Int
  items : List LayoutItem
  previewItem : LayoutItem
deriving DecidableEq, Repr

/-- resize (lines 407-599): the per-pointer-resize handler.  Throws when
the grid context has no itemSize yet; otherwise computes the new pixel
rectangle per handle direction, applies min/max and bounds constraints in
pixel space, snaps size then position, locks the fixed edges for west and
north handles, clamps to the item's min/max in grid units, and dispatches
on the collision mode; in mode none the candidate is committed to the
preview only when it has no collisions. -/
def resize (gp : GridParams) (ippLeft ippTop initW initH initL initT : Int)
    (originalGridRight originalGridBottom : Int) (direction : ResizeDirection)
    (preview : LayoutItem) (pageX pageY : Int) : Except String ResizeOutcome :=
  match gp.itemSize with
  | Option.none => Except.error "Grid is not mounted yet"
  | some itemSize =>
      let deltaX := pageX - ippLeft
      let deltaY := pageY - ippTop
      let r0 : Int × Int × Int × Int :=
        match direction with
        | ResizeDirection.se => (initW + deltaX, initH + deltaY, initL, initT)
        | ResizeDirection.sw => (initW - deltaX, initH + deltaY, initL + deltaX, initT)
        | ResizeDirection.ne => (initW + deltaX, initH - deltaY, initL, initT + deltaY)
        | ResizeDirection.nw => (initW - deltaX, initH - deltaY, initL + deltaX, initT + deltaY)
      let minSize : ItemSize :=
        { width := coordinate2size preview.min.w itemSize.width gp.gap
          height := coordinate2size preview.min.h itemSize.height gp.gap }
      let r1 : Int × Int × Int × Int :=
        let (nw0, nh0, nl0, nt0) := r0
        let (nw1, nl1) :=
          if nw0 < minSize.width then
            (minSize.width, if dirHasW direction then initL + initW - minSize.width else nl0)
          else (nw0, nl0)
        let (nh1, nt1) :=
          if nh0 < minSize.height then
            (minSize.height, if dirHasN direction then initT + initH - minSize.height else nt0)
          else (nh0, nt0)
        (nw1, nh1, nl1, nt1)
      let r2 : Int × Int × Int × Int :=
        match preview.max with
        | some m =>
            let maxSize : ItemSize :=
              { width := coordinate2size m.w itemSize.width gp.gap
                height := coordinate2size m.h itemSize.height gp.gap }
            let (nw0, nh0, nl0, nt0) := r1
            let (nw1, nl1) :=
              if nw0 > maxSize.width then
                (maxSize.width, if dirHasW direction then initL + initW - maxSize.width else nl0)
              else (nw0, nl0)
            let (nh1, nt1) :=
              if nh0 > maxSize.height then
                (maxSize.height, if dirHasN direction then initT + initH - maxSize.height else nt0)
              else (nh0, nt0)
            (nw1, nh1, nl1, nt1)
        | Option.none => r1
      let r3 : Int × Int × Int × Int :=
        match gp.bounds, gp.boundsTo with
        | true, some parentRect =>
            let (nw0, nh0, nl0, nt0) := r2
            let (nw1, nl1) :=
              if nl0 < parentRect.left then (initL + initW - parentRect.left, parentRect.left)
              else (nw0, nl0)
            let (nh1, nt1) :=
              if nt0 < parentRect.top then (initT + initH - parentRect.top, parentRect.top)
              else (nh0, nt0)
            let nw2 := if nl1 + nw1 > parentRect.right then parentRect.right - nl1 else nw1
            let nh2 := if nt1 + nh1 > parentRect.bottom then parentRect.bottom - nt1 else nh1
            (nw2, nh2, nl1, nt1)
        | _, _ => r2
      let width := r3.1
      let height := r3.2.1
      let left := r3.2.2.1
      let top := r3.2.2.2
      let snapped := snapOnResize width height preview itemSize gp.gap
      let snappedW := snapped.1
      let snappedH := snapped.2
      let xy : Int × Int :=
        if dirHasW direction || dirHasN direction then
          snapOnMove left top { preview with w := snappedW, h := snappedH } itemSize gp.gap
        else (preview.x, preview.y)
      let x := xy.1
      let y := xy.2
      let w0 := if dirHasW direction then max 1 (originalGridRight - x) else snappedW
      let h0 := if dirHasN direction then max 1 (originalGridBottom - y) else snappedH
      let w1 := max w0 preview.min.w
      let h1 := max h0 preview.min.h
      let w := match preview.max with
        | some m => min w1 m.w
        | Option.none => w1
      let h := match preview.max with
        | some m => min h1 m.h
        | Option.none => h1
      match gp.collision with
      | Collision.none =>
          if hasCollisions { preview with x := x, y := y, w := w, h := h } gp.items then
            Except.ok { left := left, top := top, width := width, height := height,
                        items := gp.items, previewItem := preview }
          else
            Except.ok { left := left, top := top, width := width, height := height,
                        items := gp.items,
                        previewItem := { preview with x := x, y := y, w := w, h := h } }
      | Collision.compress =>
          let r := resizePreviewWithCollisionsWithCompress left top itemSize gp.gap
            gp.items preview w h
          Except.ok { left := left, top := top, width := width, height := height,
                      items := r.1, previewItem := r.2 }
      | Collision.push =>
          let r := resizePreviewWithCollisionsWithPush gp.maxCols gp.maxRows left top
            itemSize gp.gap gp.items preview w h
          Except.ok { left := left, top := top, width := width, height := height,
                      items := r.1, previewItem := r.2 }

/-!  General helper lemmas. -/

/-- An id-preserving pointwise update keeps the id list. -/
theorem map_update_ids (st : List LayoutItem) (f : LayoutItem → LayoutItem)
    (hf : ∀ i, (f i).id = i.id) :
    (st.map f).map (fun i => i.id) = st.map (fun i => i.id) := by
  rw [List.map_map]
  exact List.map_congr_left (fun a _ => hf a)

/-- In a list with distinct ids, two members with the same id coincide. -/
theorem eq_of_mem_of_id_eq {st : List LayoutItem}
    (hnd : (st.map (fun i => i.id)).Nodup) {a b : LayoutItem}
    (ha : a ∈ st) (hb : b ∈ st) (hid : a.id = b.id) : a = b := by
  exact List.inj_on_of_nodup_map hnd ha hb hid

/-- Membership in the push temporary set. -/
theorem mem_pushTempSet {st : List LayoutItem} {collId previewId : Nat}
    {cand : LayoutItem} {j : LayoutItem} :
    j ∈ pushTempSet st collId previewId cand ↔
      j = cand ∨ (j ∈ st ∧ j.id ≠ collId ∧ j.id ≠ previewId) := by
  unfold pushTempSet
  simp only [List.mem_append, List.mem_filter, List.mem_singleton, decide_eq_true_eq]
  tauto

/-!  Concrete inputs used by witnesses and counterexamples. -/

/-- Item constructor with default interaction fields. -/
def mkItem (i : Nat) (x y w h : Int) : LayoutItem :=
  { id := i, x := x, y := y, w := w, h := h, min := { w := 1, h := 1 },
    max := Option.none, movable := true, resizable := true }

/-- A grid context whose itemSize is still absent. -/
def gpNotMounted : GridParams :=
  { items := [], itemSize := Option.none, gap := 0, maxCols := Option.none,
    maxRows := Option.none, collision := Collision.push, bounds := false,
    boundsTo := Option.none, readOnly := false }

/-- C6: if a move or resize update is processed while the grid context's
itemSize is absent, neither handler proceeds with geometry computation:
both stop at once with the distinct error value
"Grid is not mounted yet" (lines 208-211 and 407-410). -/
theorem itemSize_absent_raises (gp : GridParams)
    (ippL ippT ipL ipT width height : Int) (preview : LayoutItem)
    (pageX pageY : Int) (initW initH initL initT ogr ogb : Int)
    (dir : ResizeDirection) (h : gp.itemSize = Option.none) :
    move gp ippL ippT ipL ipT width height preview pageX pageY =
        Except.error "Grid is not mounted yet" ∧
      resize gp ippL ippT initW initH initL initT ogr ogb dir preview pageX pageY =
        Except.error "Grid is not mounted yet" := by
  constructor
  · unfold move
    rw [h]
  · unfold resize
    rw [h]

/-- Witness for itemSize_absent_raises at a concrete not-yet-mounted grid. -/
theorem itemSize_absent_raises_witness :
    move gpNotMounted 0 0 0 0 0 0 (mkItem 1 0 0 1 1) 0 0 =
        Except.error "Grid is not mounted yet" ∧
      resize gpNotMounted 0 0 0 0 0 0 0 0 ResizeDirection.se (mkItem 1 0 0 1 1) 0 0 =
        Except.error "Grid is not mounted yet" :=
  itemSize_absent_raises gpNotMounted 0 0 0 0 0 0 (mkItem 1 0 0 1 1) 0 0 0 0 0 0 0 0
    ResizeDirection.se rfl

/-- C5: when the free-slot search is exhausted (returns no position), the
colliding item's coordinates are left untouched and the whole state is
returned unchanged; no error is raised (lines 259-264 assign only under
`if (newPosition)`). -/
theorem exhausted_search_keeps_position (maxCols maxRows : Option Int)
    (st : List LayoutItem) (collItem : LayoutItem) (searchItems : List LayoutItem)
    (h : getAvailablePosition collItem searchItems maxCols maxRows = Option.none) :
    updateCollItemPositionWithPush maxCols maxRows st collItem searchItems = st := by
  unfold updateCollItemPositionWithPush
  rw [h]

/-- Witness for exhausted_search_keeps_position: a full 1-by-1 bounded grid
leaves the colliding 1x1 item exactly where it was. -/
theorem exhausted_search_keeps_position_witness :
    getAvailablePosition (mkItem 2 1 0 1 1) [mkItem 1 0 0 1 1] (some 1) (some 1) =
        Option.none ∧
      updateCollItemPositionWithPush (some 1) (some 1)
          [mkItem 1 0 0 1 1, mkItem 2 1 0 1 1] (mkItem 2 1 0 1 1) [mkItem 1 0 0 1 1] =
        [mkItem 1 0 0 1 1, mkItem 2 1 0 1 1] :=
  ⟨by decide,
    exhausted_search_keeps_position (some 1) (some 1)
      [mkItem 1 0 0 1 1, mkItem 2 1 0 1 1] (mkItem 2 1 0 1 1) [mkItem 1 0 0 1 1]
      (by decide)⟩

/-- C10: a push-mode relocation assigns only x and y; the id, w, h, min,
max, movable and resizable fields of every item are unchanged whether or
not the search succeeds (lines 252-266). -/
theorem relocation_touches_only_xy (maxCols maxRows : Option Int)
    (st : List LayoutItem) (collItem : LayoutItem) (searchItems : List LayoutItem) :
    (updateCollItemPositionWithPush maxCols maxRows st collItem searchItems).map
        (fun i => (i.id, i.w, i.h, i.min, i.max, i.movable, i.resizable)) =
      st.map (fun i => (i.id, i.w, i.h, i.min, i.max, i.movable, i.resizable)) := by
  unfold updateCollItemPositionWithPush
  cases h : getAvailablePosition collItem searchItems maxCols maxRows with
  | none => rfl
  | some p =>
      obtain ⟨px, py⟩ := p
      rw [List.map_map]
      refine List.map_congr_left ?_
      intro a _
      by_cases hid : a.id = collItem.id <;> simp [Function.comp, hid]

/-- A mounted grid in collision mode none holding two adjacent unit items. -/
def gpNone : GridParams :=
  { items := [mkItem 1 0 0 1 1, mkItem 2 1 0 1 1],
    itemSize := some { width := 100, height := 100 }, gap := 10,
    maxCols := Option.none, maxRows := Option.none, collision := Collision.none,
    bounds := false, boundsTo := Option.none, readOnly := false }

/-- C2 (counterexample): in collision mode none the candidate is NOT
accepted unconditionally and a collision check IS performed: dragging item
1 one cell right (pixel left 110 snaps to column 1, occupied by item 2)
leaves the preview at its old position although the candidate differs from
it, because the candidate collides (lines 245-248). -/
theorem none_mode_unconditional_accept_refuted :
    move gpNone 0 0 0 0 0 0 (mkItem 1 0 0 1 1) 110 0 =
        Except.ok { left := 110, top := 0, items := gpNone.items,
                    previewItem := mkItem 1 0 0 1 1 } ∧
      hasCollisions { mkItem 1 0 0 1 1 with x := 1, y := 0 } gpNone.items = true ∧
      ({ mkItem 1 0 0 1 1 with x := 1, y := 0 } : LayoutItem) ≠ mkItem 1 0 0 1 1 := by
  refine ⟨?_, by decide, by decide⟩
  rfl

/-- Inversion of a committed if-then-else outcome. -/
theorem ite_ok_inv {α : Type} {C : Bool} {A B : α} {out : α}
    (h : (if C = true then (Except.ok A : Except String α) else Except.ok B) = Except.ok out) :
    (C = true ∧ out = A) ∨ (C = false ∧ out = B) := by
  cases hc : C with
  | true => rw [hc] at h; simp at h; exact Or.inl ⟨rfl, h.symm⟩
  | false => rw [hc] at h; simp at h; exact Or.inr ⟨rfl, h.symm⟩

/-- C2 (amended): in collision mode none a move or resize sample never
mutates the item list and never relocates any other item; the preview
either keeps its previous value or adopts a candidate that has no
collisions with the other items — a colliding candidate is rejected by the
hasCollisions guard before commit. -/
theorem none_mode_rejects_collisions (gp : GridParams)
    (ippL ippT ipL ipT width height : Int) (preview : LayoutItem)
    (pageX pageY : Int) (initW initH initL initT ogr ogb : Int)
    (dir : ResizeDirection) (hmode : gp.collision = Collision.none) :
    (∀ out, move gp ippL ippT ipL ipT width height preview pageX pageY = Except.ok out →
        out.items = gp.items ∧
          (out.previewItem = preview ∨ hasCollisions out.previewItem gp.items = false)) ∧
    (∀ out, resize gp ippL ippT initW initH initL initT ogr ogb dir preview pageX pageY =
          Except.ok out →
        out.items = gp.items ∧
          (out.previewItem = preview ∨ hasCollisions out.previewItem gp.items = false)) := by
  constructor
  · intro out hout
    unfold move at hout
    cases hsize : gp.itemSize with
    | none => rw [hsize] at hout; cases hout
    | some itemSize =>
        rw [hsize, hmode] at hout
        dsimp only at hout
        split at hout
        · cases hout
          exact ⟨rfl, Or.inl rfl⟩
        · cases hout
          refine ⟨rfl, Or.inr ?_⟩
          next hcol => exact Bool.eq_false_iff.mpr hcol
  · intro out hout
    unfold resize at hout
    cases hsize : gp.itemSize with
    | none => rw [hsize] at hout; cases hout
    | some itemSize =>
        rw [hsize, hmode] at hout
        dsimp only at hout
        rcases ite_ok_inv hout with ⟨hc, rfl⟩ | ⟨hc, rfl⟩
        · exact ⟨rfl, Or.inl rfl⟩
        · exact ⟨rfl, Or.inr hc⟩

/-- The outcome of the rejected none-mode move on gpNone. -/
def gpNoneOut : MoveOutcome :=
  { left := 110, top := 0, items := gpNone.items, previewItem := mkItem 1 0 0 1 1 }

/-- Witness for none_mode_rejects_collisions at the gpNone grid. -/
theorem none_mode_rejects_collisions_witness :
    gpNoneOut.items = gpNone.items ∧
      (gpNoneOut.previewItem = mkItem 1 0 0 1 1 ∨
        hasCollisions gpNoneOut.previewItem gpNone.items = false) :=
  (none_mode_rejects_collisions gpNone 0 0 0 0 0 0 (mkItem 1 0 0 1 1) 110 0
      0 0 0 0 0 0 ResizeDirection.se rfl).1 gpNoneOut (by rfl)

/-- A mounted grid in collision mode push holding two adjacent unit items. -/
def gpPush : GridParams :=
  { items := [mkItem 1 0 0 1 1, mkItem 2 1 0 1 1],
    itemSize := some { width := 100, height := 100 }, gap := 10,
    maxCols := Option.none, maxRows := Option.none, collision := Collision.push,
    bounds := false, boundsTo := Option.none, readOnly := false }

/-- C3 (counterexample): in push mode a plain pointer-move sample (the move
handler, no end-of-interaction commit involved) mutates the authoritative
item coordinates: dragging item 1 onto item 2 relocates item 2 and writes
the candidate into item 1 during the sample (lines 252-290 call
collItem.invalidate() and applyPreview() from inside move()). -/
theorem push_mutation_only_on_commit_refuted :
    move gpPush 0 0 0 0 0 0 (mkItem 1 0 0 1 1) 110 0 =
        Except.ok { left := 110, top := 0,
                    items := [mkItem 1 1 0 1 1, mkItem 2 0 0 1 1],
                    previewItem := mkItem 1 1 0 1 1 } ∧
      [mkItem 1 1 0 1 1, mkItem 2 0 0 1 1] ≠ gpPush.items := by
  refine ⟨by rfl, by decide⟩

/-- C3 (amended): in push mode the candidate is committed on every sample:
after each candidate update the authoritative item carrying the preview's
id holds exactly the candidate's x, y, w and h — mutation is not deferred
to the end of the interaction. -/
theorem push_step_commits_candidate (maxCols maxRows : Option Int)
    (st : List LayoutItem) (preview : LayoutItem) (na : NewAttributes) :
    ∀ i ∈ (handleCollisionsForPreviewItemWithPush maxCols maxRows st preview na).items,
      i.id = preview.id →
        i.x = (applyAttrs preview na).x ∧ i.y = (applyAttrs preview na).y ∧
          i.w = (applyAttrs preview na).w ∧ i.h = (applyAttrs preview na).h := by
  intro i hi hid
  unfold handleCollisionsForPreviewItemWithPush at hi
  dsimp only at hi
  unfold applyPreview at hi
  rw [List.mem_map] at hi
  obtain ⟨a, ha, rfl⟩ := hi
  by_cases h : a.id = (applyAttrs preview na).id
  · simp [h]
  · rw [if_neg h] at hid
    exact absurd hid h

/-- The new attributes of the gpPush drag sample. -/
def pushNa : NewAttributes := { x := some 1, y := some 0 }

/-- Witness for push_step_commits_candidate at the gpPush scenario. -/
theorem push_step_commits_candidate_witness :
    (mkItem 1 1 0 1 1).x = (applyAttrs (mkItem 1 0 0 1 1) pushNa).x ∧
      (mkItem 1 1 0 1 1).y = (applyAttrs (mkItem 1 0 0 1 1) pushNa).y ∧
      (mkItem 1 1 0 1 1).w = (applyAttrs (mkItem 1 0 0 1 1) pushNa).w ∧
      (mkItem 1 1 0 1 1).h = (applyAttrs (mkItem 1 0 0 1 1) pushNa).h :=
  push_step_commits_candidate Option.none Option.none gpPush.items
    (mkItem 1 0 0 1 1) pushNa (mkItem 1 1 0 1 1) (by decide) (by decide)

/-- The collision list of one push-mode candidate update (lines 274-276). -/
def pushCollItems (gridItems : List LayoutItem) (preview : LayoutItem)
    (na : NewAttributes) : List LayoutItem :=
  getCollisions (applyAttrs preview na)
    (gridItems.filter (fun i => decide (i.id ≠ preview.id)))

/-- The item list after the first k collider relocations of one push-mode
candidate update (prefix of the forEach of lines 278-285). -/
def pushStateAfter (maxCols maxRows : Option Int) (gridItems : List LayoutItem)
    (preview : LayoutItem) (na : NewAttributes) (k : Nat) : List LayoutItem :=
  ((pushCollItems gridItems preview na).take k).foldl
    (pushRelocateStep maxCols maxRows preview.id (applyAttrs preview na)) gridItems

/-- A relocation step keeps every item whose id is not the collider's. -/
theorem pushRelocateStep_keeps_others (maxCols maxRows : Option Int)
    (previewId : Nat) (cand : LayoutItem) (st : List LayoutItem)
    (coll : LayoutItem) (a : LayoutItem) (ha : a ∈ st) (hne : a.id ≠ coll.id) :
    a ∈ pushRelocateStep maxCols maxRows previewId cand st coll := by
  unfold pushRelocateStep updateCollItemPositionWithPush
  cases h : getAvailablePosition coll (pushTempSet st coll.id previewId cand) maxCols maxRows with
  | none => exact ha
  | some p =>
      obtain ⟨px, py⟩ := p
      rw [List.mem_map]
      exact ⟨a, ha, by rw [if_neg hne]⟩

/-- A successful relocation step writes the found coordinates into every
item carrying the collider's id. -/
theorem pushRelocateStep_writes (maxCols maxRows : Option Int)
    (previewId : Nat) (cand : LayoutItem) (st : List LayoutItem)
    (coll : LayoutItem) (px py : Int)
    (h : getAvailablePosition coll (pushTempSet st coll.id previewId cand)
        maxCols maxRows = some (px, py)) :
    ∀ a ∈ pushRelocateStep maxCols maxRows previewId cand st coll,
      a.id = coll.id → a.x = px ∧ a.y = py := by
  intro a ha hid
  unfold pushRelocateStep updateCollItemPositionWithPush at ha
  rw [h] at ha
  rw [List.mem_map] at ha
  obtain ⟨b, hb, rfl⟩ := ha
  by_cases hbc : b.id = coll.id
  · rw [if_pos hbc]
    exact ⟨rfl, rfl⟩
  · rw [if_neg hbc] at hid ⊢
    exact absurd hid hbc

/-- A relocation step keeps the id list. -/
theorem pushRelocateStep_ids (maxCols maxRows : Option Int)
    (previewId : Nat) (cand : LayoutItem) (st : List LayoutItem)
    (coll : LayoutItem) :
    (pushRelocateStep maxCols maxRows previewId cand st coll).map (fun i => i.id) =
      st.map (fun i => i.id) := by
  unfold pushRelocateStep updateCollItemPositionWithPush
  cases h : getAvailablePosition coll (pushTempSet st coll.id previewId cand) maxCols maxRows with
  | none => rfl
  | some p =>
      obtain ⟨px, py⟩ := p
      exact map_update_ids st _ (fun i => by by_cases hi : i.id = coll.id <;> simp [hi])

/-- The relocation fold keeps every item whose id is none of the folded
colliders' ids. -/
theorem pushRelocate_foldl_keeps (maxCols maxRows : Option Int)
    (previewId : Nat) (cand : LayoutItem) (cs : List LayoutItem) :
    ∀ st : List LayoutItem, ∀ a ∈ st, (∀ c ∈ cs, a.id ≠ c.id) →
      a ∈ cs.foldl (pushRelocateStep maxCols maxRows previewId cand) st := by
  induction cs with
  | nil => intro st a ha _; exact ha
  | cons c rest ih =>
      intro st a ha hne
      rw [List.foldl_cons]
      exact ih _ a
        (pushRelocateStep_keeps_others maxCols maxRows previewId cand st c a ha
          (hne c (List.mem_cons_self c rest)))
        (fun d hd => hne d (List.mem_cons_of_mem c hd))

/-- The relocation fold keeps the id list. -/
theorem pushRelocate_foldl_ids (maxCols maxRows : Option Int)
    (previewId : Nat) (cand : LayoutItem) (cs : List LayoutItem) :
    ∀ st : List LayoutItem,
      (cs.foldl (pushRelocateStep maxCols maxRows previewId cand) st).map (fun i => i.id) =
        st.map (fun i => i.id) := by
  induction cs with
  | nil => intro st; rfl
  | cons c rest ih =>
      intro st
      rw [List.foldl_cons, ih, pushRelocateStep_ids]

/-- Relocation states keep the id list of the original item list. -/
theorem pushStateAfter_ids (maxCols maxRows : Option Int) (st : List LayoutItem)
    (preview : LayoutItem) (na : NewAttributes) (k : Nat) :
    (pushStateAfter maxCols maxRows st preview na k).map (fun i => i.id) =
      st.map (fun i => i.id) := by
  unfold pushStateAfter
  exact pushRelocate_foldl_ids maxCols maxRows preview.id (applyAttrs preview na) _ st

/-- Processing the (k+1)-st prefix runs the k-th collider on the state
holding the first k relocations. -/
theorem pushStateAfter_succ (maxCols maxRows : Option Int) (st : List LayoutItem)
    (preview : LayoutItem) (na : NewAttributes) (k : Nat)
    (hk : k < (pushCollItems st preview na).length) :
    pushStateAfter maxCols maxRows st preview na (k + 1) =
      pushRelocateStep maxCols maxRows preview.id (applyAttrs preview na)
        (pushStateAfter maxCols maxRows st preview na k)
        ((pushCollItems st preview na).get ⟨k, hk⟩) := by
  unfold pushStateAfter
  rw [List.take_succ, List.foldl_append, List.getElem?_eq_getElem hk]
  rfl

/-- The relocation fold from prefix j+1 to prefix k. -/
theorem pushStateAfter_from (maxCols maxRows : Option Int) (st : List LayoutItem)
    (preview : LayoutItem) (na : NewAttributes) (j k : Nat) (h : j + 1 ≤ k) :
    pushStateAfter maxCols maxRows st preview na k =
      (((pushCollItems st preview na).take k).drop (j + 1)).foldl
        (pushRelocateStep maxCols maxRows preview.id (applyAttrs preview na))
        (pushStateAfter maxCols maxRows st preview na (j + 1)) := by
  unfold pushStateAfter
  conv_lhs =>
    rw [← List.take_append_drop (j + 1) ((pushCollItems st preview na).take k),
      List.foldl_append]
  rw [List.take_take, min_eq_left h]

/-- The collision list is drawn from the item list. -/
theorem pushCollItems_subset (st : List LayoutItem) (preview : LayoutItem)
    (na : NewAttributes) : ∀ c ∈ pushCollItems st preview na, c ∈ st := by
  intro c hc
  unfold pushCollItems getCollisions at hc
  exact List.mem_of_mem_filter (List.mem_of_mem_filter hc)

/-- The collision list inherits distinct ids from the item list. -/
theorem pushCollItems_nodup (st : List LayoutItem) (preview : LayoutItem)
    (na : NewAttributes) (hnd : (st.map (fun i => i.id)).Nodup) :
    ((pushCollItems st preview na).map (fun i => i.id)).Nodup := by
  unfold pushCollItems getCollisions
  exact hnd.sublist (List.Sublist.map _ ((List.filter_sublist _).trans (List.filter_sublist _)))

/-- C4: in push mode each colliding item is relocated over a temporary set
consisting of the candidate plus all current items except that collider
and except the moving item; colliders are processed sequentially in
collision-list order, and a previously relocated collider appears at its
updated coordinates in every later state, hence in every later search
set. -/
theorem push_relocation_search_sets (maxCols maxRows : Option Int)
    (st : List LayoutItem) (preview : LayoutItem) (na : NewAttributes)
    (hnd : (st.map (fun i => i.id)).Nodup) :
    (∀ k, ∀ hk : k < (pushCollItems st preview na).length, ∀ j,
        (j ∈ pushTempSet (pushStateAfter maxCols maxRows st preview na k)
            ((pushCollItems st preview na).get ⟨k, hk⟩).id preview.id
            (applyAttrs preview na) ↔
          (j = applyAttrs preview na ∨
            (j ∈ pushStateAfter maxCols maxRows st preview na k ∧
              j.id ≠ ((pushCollItems st preview na).get ⟨k, hk⟩).id ∧
              j.id ≠ preview.id)))) ∧
    (∀ k, ∀ hk : k < (pushCollItems st preview na).length,
        pushStateAfter maxCols maxRows st preview na (k + 1) =
          pushRelocateStep maxCols maxRows preview.id (applyAttrs preview na)
            (pushStateAfter maxCols maxRows st preview na k)
            ((pushCollItems st preview na).get ⟨k, hk⟩)) ∧
    (∀ j k, ∀ hj : j < (pushCollItems st preview na).length, j < k → ∀ px py : Int,
        getAvailablePosition ((pushCollItems st preview na).get ⟨j, hj⟩)
            (pushTempSet (pushStateAfter maxCols maxRows st preview na j)
              ((pushCollItems st preview na).get ⟨j, hj⟩).id preview.id
              (applyAttrs preview na)) maxCols maxRows = some (px, py) →
        ∃ a ∈ pushStateAfter maxCols maxRows st preview na k,
          a.id = ((pushCollItems st preview na).get ⟨j, hj⟩).id ∧ a.x = px ∧ a.y = py) := by
  refine ⟨fun k hk j => mem_pushTempSet,
    fun k hk => pushStateAfter_succ maxCols maxRows st preview na k hk, ?_⟩
  intro j k hj hjk px py hsucc
  have hmemst : (pushCollItems st preview na).get ⟨j, hj⟩ ∈ st :=
    pushCollItems_subset st preview na _ (List.get_mem _ _ _)
  have hidmem : ((pushCollItems st preview na).get ⟨j, hj⟩).id ∈
      (pushStateAfter maxCols maxRows st preview na (j + 1)).map (fun i => i.id) := by
    rw [pushStateAfter_ids]
    exact List.mem_map_of_mem _ hmemst
  rw [List.mem_map] at hidmem
  obtain ⟨a, ha, haid⟩ := hidmem
  have hstep := pushStateAfter_succ maxCols maxRows st preview na j hj
  have hwrite := pushRelocateStep_writes maxCols maxRows preview.id (applyAttrs preview na)
    (pushStateAfter maxCols maxRows st preview na j) _ px py hsucc a
    (by rw [← hstep]; exact ha) haid
  refine ⟨a, ?_, haid, hwrite.1, hwrite.2⟩
  rw [pushStateAfter_from maxCols maxRows st preview na j k hjk]
  refine pushRelocate_foldl_keeps maxCols maxRows preview.id (applyAttrs preview na)
    _ _ a ha ?_
  intro c hcmem heq
  have hcdrop : c ∈ (pushCollItems st preview na).drop (j + 1) := by
    rw [List.drop_take] at hcmem
    exact List.mem_of_mem_take hcmem
  have hcin : c ∈ pushCollItems st preview na := List.mem_of_mem_drop hcdrop
  have hceq : c = (pushCollItems st preview na).get ⟨j, hj⟩ := by
    refine eq_of_mem_of_id_eq (pushCollItems_nodup st preview na hnd) hcin
      (List.get_mem _ _ _) ?_
    rw [← heq, haid]
  have hjtake : (pushCollItems st preview na).get ⟨j, hj⟩ ∈
      (pushCollItems st preview na).take (j + 1) := by
    rw [List.take_succ, List.getElem?_eq_getElem hj]
    exact List.mem_append_right _ (by simp)
  have hdisj := List.disjoint_take_drop
    (l := pushCollItems st preview na)
    ((pushCollItems_nodup st preview na hnd).of_map) (le_refl (j + 1))
  exact hdisj hjtake (hceq ▸ hcdrop)

/-- Item list of the two-collider push scenario. -/
def c4st : List LayoutItem := [mkItem 1 0 0 1 1, mkItem 2 1 0 1 1, mkItem 3 2 0 1 1]

/-- Widening item 1 to w = 3, colliding with items 2 and 3. -/
def c4na : NewAttributes := { w := some 3 }

/-- Witness for push_relocation_search_sets: in the two-collider scenario
the second collider is processed on the state holding the first
relocation. -/
theorem push_relocation_search_sets_witness :
    pushStateAfter Option.none Option.none c4st (mkItem 1 0 0 1 1) c4na 2 =
      pushRelocateStep Option.none Option.none 1
        (applyAttrs (mkItem 1 0 0 1 1) c4na)
        (pushStateAfter Option.none Option.none c4st (mkItem 1 0 0 1 1) c4na 1)
        ((pushCollItems c4st (mkItem 1 0 0 1 1) c4na).get ⟨1, by decide⟩) :=
  (push_relocation_search_sets Option.none Option.none c4st (mkItem 1 0 0 1 1) c4na
    (by decide)).2.1 1 (by decide)

/-- Two unit items filling a bounded 2-by-1 grid. -/
def c1start : List LayoutItem := [mkItem 1 0 0 1 1, mkItem 2 1 0 1 1]

/-- A pairwise non-overlapping four-item layout in two columns. -/
def c1compressStart : List LayoutItem :=
  [mkItem 10 0 7 1 4, mkItem 11 1 4 1 4, mkItem 12 1 8 1 4, mkItem 13 0 2 1 4]

/-- C1 (counterexample): the no-overlap invariant fails on the code in both
non-none modes.  Push: on a bounded 2x1 grid, widening item 1 to w = 2
exhausts the free-slot search, item 2 keeps its position and the committed
state overlaps.  Compress: from a non-overlapping four-item state, one
committed move sample (candidate column 1, row 2) leaves items 11 and 12
overlapping, because line 628 assigns maxY+1 without re-checking
collisions when the downward scan collides immediately. -/
theorem no_overlap_invariant_refuted :
    (pairwiseNoOverlap c1start ∧
      ¬ pairwiseNoOverlap
          (handleCollisionsForPreviewItemWithPush (some 2) (some 1) c1start
            (mkItem 1 0 0 1 1) { w := some 2 }).items) ∧
    (pairwiseNoOverlap c1compressStart ∧
      ¬ pairwiseNoOverlap
          (movePreviewWithCollisionsWithCompress 1 2 c1compressStart
            (mkItem 10 0 7 1 4)).items) :=
  ⟨⟨by decide, by decide⟩, ⟨by decide, by decide⟩⟩

/-- Once a relocation failed, the success flag stays false. -/
theorem pushOkFold_false (maxCols maxRows : Option Int) (pid : Nat)
    (cand : LayoutItem) :
    ∀ (cs : List LayoutItem) (p : List LayoutItem × Bool), p.2 = false →
      (cs.foldl (pushRelocateStepOk maxCols maxRows pid cand) p).2 = false := by
  intro cs
  induction cs with
  | nil => intro p hp; exact hp
  | cons c rest ih =>
      intro p hp
      rw [List.foldl_cons]
      refine ih _ ?_
      unfold pushRelocateStepOk
      split
      · exact hp
      · rfl


/-- Invariant of the push relocation fold: when every relocation succeeds,
pairwise non-overlap among non-preview items is preserved and every
non-preview item ends up clear of the candidate. -/
theorem push_fold_no_overlap (maxCols maxRows : Option Int) (pid : Nat)
    (cand : LayoutItem) (hcid : cand.id = pid) :
    ∀ (cs st : List LayoutItem),
      (∀ c ∈ cs, c.id ≠ pid) →
      ((cs.map (fun i => i.id)).Nodup) →
      (∀ c ∈ cs, ∀ a ∈ st, a.id = c.id → a.w = c.w ∧ a.h = c.h) →
      (∀ a ∈ st, ∀ b ∈ st, a.id ≠ b.id → a.id ≠ pid → b.id ≠ pid →
        overlaps a b = false) →
      (∀ a ∈ st, a.id ≠ pid → (∀ c ∈ cs, a.id ≠ c.id) → overlaps a cand = false) →
      ((cs.foldl (pushRelocateStepOk maxCols maxRows pid cand) (st, true)).2 = true) →
      ((∀ a ∈ cs.foldl (pushRelocateStep maxCols maxRows pid cand) st,
          ∀ b ∈ cs.foldl (pushRelocateStep maxCols maxRows pid cand) st,
          a.id ≠ b.id → a.id ≠ pid → b.id ≠ pid → overlaps a b = false) ∧
        (∀ a ∈ cs.foldl (pushRelocateStep maxCols maxRows pid cand) st,
          a.id ≠ pid → overlaps a cand = false)) := by
  intro cs
  induction cs with
  | nil =>
      intro st hcpid hnd hdim hA hB hok
      exact ⟨hA, fun a ha hap => hB a ha hap (fun c hc => absurd hc (List.not_mem_nil c))⟩
  | cons c rest ih =>
      intro st hcpid hnd hdim hA hB hok
      rw [List.foldl_cons] at hok
      cases hgap : getAvailablePosition c (pushTempSet st c.id pid cand) maxCols maxRows with
      | none =>
          exfalso
          have hstep0 : pushRelocateStepOk maxCols maxRows pid cand (st, true) c = (st, false) := by
            unfold pushRelocateStepOk
            dsimp only
            rw [hgap]
          rw [hstep0, pushOkFold_false maxCols maxRows pid cand rest (st, false) rfl] at hok
          exact Bool.false_ne_true hok
      | some p =>
          obtain ⟨px, py⟩ := p
          have hstepOk : pushRelocateStepOk maxCols maxRows pid cand (st, true) c =
              (st.map (fun i => if i.id = c.id then { i with x := px, y := py } else i), true) := by
            unfold pushRelocateStepOk
            dsimp only
            rw [hgap]
          have hstep : pushRelocateStep maxCols maxRows pid cand st c =
              st.map (fun i => if i.id = c.id then { i with x := px, y := py } else i) := by
            unfold pushRelocateStep updateCollItemPositionWithPush
            rw [hgap]
          rw [List.foldl_cons, hstep]
          rw [hstepOk] at hok
          have hfree := getAvailablePosition_free c (pushTempSet st c.id pid cand)
            maxCols maxRows px py hgap
          have hcpid0 : c.id ≠ pid := hcpid c (List.mem_cons_self c rest)
          have havoid : ∀ j ∈ st, j.id ≠ c.id → j.id ≠ pid →
              overlaps j { c with x := px, y := py } = false := by
            intro j hj hjc hjp
            refine not_hasCollisions_mem hfree j ?_ hjc
            rw [mem_pushTempSet]
            exact Or.inr ⟨hj, hjc, hjp⟩
          have havoidcand : overlaps cand { c with x := px, y := py } = false := by
            refine not_hasCollisions_mem hfree cand ?_ ?_
            · rw [mem_pushTempSet]
              exact Or.inl rfl
            · rw [hcid]
              exact Ne.symm hcpid0
          have hmem1 : ∀ a ∈ st.map
              (fun i => if i.id = c.id then { i with x := px, y := py } else i),
              ∃ a0 ∈ st, a.id = a0.id ∧ a.w = a0.w ∧ a.h = a0.h ∧
                ((a0.id ≠ c.id ∧ a = a0) ∨
                  (a0.id = c.id ∧ a = { a0 with x := px, y := py })) := by
            intro a ha
            rw [List.mem_map] at ha
            obtain ⟨a0, ha0, rfl⟩ := ha
            by_cases h0 : a0.id = c.id
            · rw [if_pos h0]
              exact ⟨a0, ha0, rfl, rfl, rfl, Or.inr ⟨h0, rfl⟩⟩
            · rw [if_neg h0]
              exact ⟨a0, ha0, rfl, rfl, rfl, Or.inl ⟨h0, rfl⟩⟩
          have hdimc := hdim c (List.mem_cons_self c rest)
          refine ih _ (fun d hd => hcpid d (List.mem_cons_of_mem c hd)) ?_ ?_ ?_ ?_ hok
          · rw [List.map_cons] at hnd
            exact hnd.of_cons
          · intro d hd a ha hid
            obtain ⟨a0, ha0, hida, hwa, hha, _⟩ := hmem1 a ha
            have := hdim d (List.mem_cons_of_mem c hd) a0 ha0 (by rw [← hida, hid])
            exact ⟨hwa.trans this.1, hha.trans this.2⟩
          · intro a ha b hb hab hap hbp
            obtain ⟨a0, ha0, hida, hwa, hha, hcase⟩ := hmem1 a ha
            obtain ⟨b0, hb0, hidb, hwb, hhb, hcaseb⟩ := hmem1 b hb
            rcases hcase with ⟨hanc, rfl⟩ | ⟨hac, haeq⟩
            · rcases hcaseb with ⟨hbnc, rfl⟩ | ⟨hbc, hbeq⟩
              · exact hA a ha0 b hb0 hab hap hbp
              · subst hbeq
                have hd0 := hdimc b0 hb0 hbc
                rw [overlaps_comm]
                rw [overlaps_rect { b0 with x := px, y := py } { c with x := px, y := py }
                  a rfl rfl hd0.1 hd0.2]
                rw [overlaps_comm]
                exact havoid a ha0 hanc hap
            · subst haeq
              have hd0 := hdimc a0 ha0 hac
              rcases hcaseb with ⟨hbnc, rfl⟩ | ⟨hbc, hbeq⟩
              · rw [overlaps_rect { a0 with x := px, y := py } { c with x := px, y := py }
                  b rfl rfl hd0.1 hd0.2]
                rw [overlaps_comm]
                exact havoid b hb0 hbnc hbp
              · exfalso
                subst hbeq
                exact hab (by dsimp only; rw [hac, hbc])
          · intro a ha hap hrest
            obtain ⟨a0, ha0, hida, hwa, hha, hcase⟩ := hmem1 a ha
            rcases hcase with ⟨hanc, rfl⟩ | ⟨hac, haeq⟩
            · refine hB a ha0 hap ?_
              intro d hd
              rcases List.mem_cons.mp hd with rfl | hdr
              · exact hanc
              · exact hrest d hdr
            · subst haeq
              have hd0 := hdimc a0 ha0 hac
              rw [overlaps_rect { a0 with x := px, y := py } { c with x := px, y := py }
                cand rfl rfl hd0.1 hd0.2]
              rw [overlaps_comm]
              exact havoidcand

/-- An item carrying another item's rectangle. -/
def candRect (a cand : LayoutItem) : LayoutItem :=
  { a with x := cand.x, y := cand.y, w := cand.w, h := cand.h }

/-- Overlap only depends on the copied rectangle. -/
theorem overlaps_candRect (a cand b : LayoutItem) :
    overlaps (candRect a cand) b = overlaps cand b :=
  overlaps_rect _ _ _ rfl rfl rfl rfl

/-- One committed push-mode candidate update preserves pairwise
non-overlap provided every colliding item is successfully relocated. -/
theorem push_step_preserves_no_overlap (maxCols maxRows : Option Int)
    (st : List LayoutItem) (preview : LayoutItem) (na : NewAttributes)
    (hnd : (st.map (fun i => i.id)).Nodup)
    (hpre : pairwiseNoOverlap st)
    (hok : pushAllRelocationsSucceed maxCols maxRows st preview na = true) :
    pairwiseNoOverlap
      (handleCollisionsForPreviewItemWithPush maxCols maxRows st preview na).items := by
  have hcpid : ∀ c ∈ pushCollItems st preview na, c.id ≠ preview.id := by
    intro c hc
    unfold pushCollItems getCollisions at hc
    have hmem := List.mem_of_mem_filter hc
    rw [List.mem_filter] at hmem
    simpa using hmem.2
  have hcnd := pushCollItems_nodup st preview na hnd
  have hdim : ∀ c ∈ pushCollItems st preview na, ∀ a ∈ st, a.id = c.id →
      a.w = c.w ∧ a.h = c.h := by
    intro c hc a ha hid
    have hcst := pushCollItems_subset st preview na c hc
    rw [eq_of_mem_of_id_eq hnd ha hcst hid]
    exact ⟨rfl, rfl⟩
  have hA : ∀ a ∈ st, ∀ b ∈ st, a.id ≠ b.id → a.id ≠ preview.id →
      b.id ≠ preview.id → overlaps a b = false :=
    fun a ha b hb hab _ _ => hpre a ha b hb hab
  have hB : ∀ a ∈ st, a.id ≠ preview.id →
      (∀ c ∈ pushCollItems st preview na, a.id ≠ c.id) →
      overlaps a (applyAttrs preview na) = false := by
    intro a ha hap hnotcoll
    by_contra hov
    have hov' : overlaps a (applyAttrs preview na) = true := by
      cases h : overlaps a (applyAttrs preview na)
      · exact absurd h hov
      · rfl
    have hmem : a ∈ pushCollItems st preview na := by
      unfold pushCollItems getCollisions
      rw [List.mem_filter]
      refine ⟨?_, ?_⟩
      · rw [List.mem_filter]
        exact ⟨ha, by simpa using hap⟩
      · rw [Bool.and_eq_true]
        exact ⟨by simpa using hap, hov'⟩
    exact hnotcoll a hmem rfl
  have hok' : ((pushCollItems st preview na).foldl
      (pushRelocateStepOk maxCols maxRows preview.id (applyAttrs preview na))
      (st, true)).2 = true := hok
  have main := push_fold_no_overlap maxCols maxRows preview.id (applyAttrs preview na)
    rfl (pushCollItems st preview na) st hcpid hcnd hdim hA hB hok'
  intro a ha b hb hab
  unfold handleCollisionsForPreviewItemWithPush at ha hb
  dsimp only at ha hb
  unfold applyPreview at ha hb
  rw [List.mem_map] at ha hb
  obtain ⟨a0, ha0, rfl⟩ := ha
  obtain ⟨b0, hb0, rfl⟩ := hb
  by_cases h0 : a0.id = (applyAttrs preview na).id
  · by_cases h1 : b0.id = (applyAttrs preview na).id
    · exfalso
      rw [if_pos h0, if_pos h1] at hab
      exact hab (by dsimp only; rw [h0, h1])
    · rw [if_pos h0, if_neg h1] at hab ⊢
      show overlaps (candRect a0 (applyAttrs preview na)) b0 = false
      rw [overlaps_candRect, overlaps_comm]
      exact main.2 b0 hb0 h1
  · by_cases h1 : b0.id = (applyAttrs preview na).id
    · rw [if_neg h0, if_pos h1] at hab ⊢
      show overlaps a0 (candRect b0 (applyAttrs preview na)) = false
      rw [overlaps_comm, overlaps_candRect, overlaps_comm]
      exact main.2 a0 ha0 h0
    · rw [if_neg h0, if_neg h1] at hab ⊢
      exact main.1 a0 ha0 b0 hb0 hab h0 h1

/-- A push-mode candidate update keeps the id list. -/
theorem push_step_ids (maxCols maxRows : Option Int) (st : List LayoutItem)
    (preview : LayoutItem) (na : NewAttributes) :
    (handleCollisionsForPreviewItemWithPush maxCols maxRows st preview na).items.map
        (fun i => i.id) = st.map (fun i => i.id) := by
  unfold handleCollisionsForPreviewItemWithPush
  dsimp only
  unfold applyPreview
  refine (map_update_ids _ _ ?_).trans
    (pushRelocate_foldl_ids maxCols maxRows preview.id (applyAttrs preview na) _ st)
  intro i
  by_cases h : i.id = (applyAttrs preview na).id <;> simp [h]

/-- C1 (amended): in push mode, for every sequence of committed candidate
updates (the updates produced by move and resize samples) in which every
colliding item's free-slot relocation succeeds, the authoritative item set
is pairwise non-overlapping after each committed step, provided it was at
the start and ids are distinct.  The counterexample shows the original
claim fails when a bounded grid exhausts the search (push) and on the
compress move-time path. -/
theorem push_sequence_no_overlap (maxCols maxRows : Option Int)
    (ops : List NewAttributes) (st : List LayoutItem) (preview : LayoutItem)
    (hnd : (st.map (fun i => i.id)).Nodup)
    (hpre : pairwiseNoOverlap st)
    (hok : pushRunAllSucceed maxCols maxRows ops (st, preview) = true) :
    ∀ k, pairwiseNoOverlap (pushRun maxCols maxRows (ops.take k) (st, preview)).1 := by
  induction ops generalizing st preview with
  | nil =>
      intro k
      rw [List.take_nil]
      exact hpre
  | cons na rest ih =>
      intro k
      cases k with
      | zero => exact hpre
      | succ k =>
          rw [List.take_succ_cons]
          unfold pushRunAllSucceed at hok
          rw [Bool.and_eq_true] at hok
          have hstep := push_step_preserves_no_overlap maxCols maxRows st preview na
            hnd hpre hok.1
          have hids : ((handleCollisionsForPreviewItemWithPush maxCols maxRows st
              preview na).items.map (fun i => i.id)).Nodup := by
            rw [push_step_ids]
            exact hnd
          show pairwiseNoOverlap
            (pushRun maxCols maxRows (List.take k rest)
              ((handleCollisionsForPreviewItemWithPush maxCols maxRows st preview na).items,
               (handleCollisionsForPreviewItemWithPush maxCols maxRows st preview
                 na).previewItem)).1
          exact ih _ _ hids hstep hok.2 k

/-- Witness for push_sequence_no_overlap: one committed push update on the
gpPush layout, with both relocations succeeding. -/
theorem push_sequence_no_overlap_witness :
    pairwiseNoOverlap
      (pushRun Option.none Option.none ([pushNa].take 1)
        (gpPush.items, mkItem 1 0 0 1 1)).1 :=
  push_sequence_no_overlap Option.none Option.none [pushNa] gpPush.items
    (mkItem 1 0 0 1 1) (by decide) (by decide) (by decide) 1


/-- Membership through descending insertion. -/
theorem mem_insertDescByY {a x : LayoutItem} :
    ∀ {l : List LayoutItem}, a ∈ insertDescByY x l ↔ a = x ∨ a ∈ l := by
  intro l
  induction l with
  | nil => simp [insertDescByY]
  | cons b rest ih =>
      unfold insertDescByY
      by_cases h : x.y > b.y
      · rw [if_pos h]
        simp [List.mem_cons]
      · rw [if_neg h]
        rw [List.mem_cons, ih, List.mem_cons]
        tauto

/-- Membership through the descending sort. -/
theorem mem_sortDescByY {a : LayoutItem} {l : List LayoutItem} :
    a ∈ sortDescByY l ↔ a ∈ l := by
  suffices h : ∀ (l acc : List LayoutItem),
      (a ∈ l.foldl (fun acc it => insertDescByY it acc) acc ↔ a ∈ acc ∨ a ∈ l) by
    unfold sortDescByY
    rw [h l []]
    simp
  intro l
  induction l with
  | nil => intro acc; simp
  | cons b rest ih =>
      intro acc
      rw [List.foldl_cons, ih, mem_insertDescByY, List.mem_cons]
      tauto

/-- What a findById lookup returns. -/
theorem findById_some {st : List LayoutItem} {i : Nat} {it : LayoutItem}
    (h : findById st i = some it) : it ∈ st ∧ it.id = i := by
  unfold findById at h
  refine ⟨List.mem_of_find?_eq_some h, ?_⟩
  have := List.find?_some h
  simpa using this

/-- A moved pass in which no looked-up item passes the below-centre test
changes nothing. -/
theorem compressMovedPass_no_fire (preview : LayoutItem) (origY : Int) (pid : Nat)
    (allIds : List Nat) :
    ∀ (ids : List Nat) (newY : Int) (st : List LayoutItem),
      (∀ i ∈ ids, ∀ it, findById st i = some it →
        2 * origY + preview.h < 2 * it.y + it.h) →
      ids.foldl (compressMovedStep preview origY pid allIds) (false, newY, st) =
        (false, newY, st) := by
  intro ids
  induction ids with
  | nil => intro newY st _; rfl
  | cons i rest ih =>
      intro newY st h
      rw [List.foldl_cons]
      have hstep : compressMovedStep preview origY pid allIds (false, newY, st) i =
          (false, newY, st) := by
        unfold compressMovedStep
        dsimp only
        cases hf : findById st i with
        | none => rfl
        | some it =>
            dsimp only
            rw [if_neg ?_]
            exact not_le.mpr (h i (List.mem_cons_self i rest) it hf)
      rw [hstep]
      exact ih newY st (fun j hj it hf => h j (List.mem_cons_of_mem i hj) it hf)

/-- Collision-free probe rows are skipped all the way down. -/
theorem compressProbeRows_all_free (preview : LayoutItem) (x origY : Int)
    (st : List LayoutItem) :
    ∀ n : Nat, (∀ m : Nat, m ≤ n → getCollisions
        { preview with x := x, y := (m : Int) } st = []) →
      compressProbeRows preview x origY st n = (-1, st) := by
  intro n
  induction n with
  | zero =>
      intro h
      have h0 := h 0 (le_refl 0)
      rw [show ((0 : Nat) : Int) = (0 : Int) from rfl] at h0
      conv_lhs => unfold compressProbeRows
      rw [h0]
      rfl
  | succ n ih =>
      intro h
      have h1 := h (n + 1) (le_refl _)
      rw [show ((n + 1 : Nat) : Int) = ((n : Int) + 1) from by push_cast; rfl] at h1
      conv_lhs => unfold compressProbeRows
      rw [h1]
      exact ih (fun m hm => h m (Nat.le_succ_of_le hm))

/-- Probing skips the collision-free rows between the start and the first
colliding row. -/
theorem compressProbeRows_until (preview : LayoutItem) (x origY : Int)
    (st : List LayoutItem) (rn : Nat) :
    ∀ n : Nat, rn ≤ n →
      (∀ m : Nat, rn < m → m ≤ n → getCollisions
        { preview with x := x, y := (m : Int) } st = []) →
      compressProbeRows preview x origY st n = compressProbeRows preview x origY st rn := by
  intro n
  induction n with
  | zero =>
      intro hr _
      rw [Nat.le_zero.mp hr]
  | succ n ih =>
      intro hr h
      rcases Nat.lt_or_ge rn (n + 1) with hlt | hge
      · have hfree := h (n + 1) hlt (le_refl _)
        rw [show ((n + 1 : Nat) : Int) = ((n : Int) + 1) from by push_cast; rfl] at hfree
        conv_lhs => unfold compressProbeRows
        rw [hfree]
        exact (if_pos rfl).trans
          (ih (Nat.lt_succ_iff.mp hlt) (fun m hm1 hm2 => h m hm1 (Nat.le_succ_of_le hm2)))
      · rw [Nat.le_antisymm hr hge]

/-- The preview produced by a compress move sample, as a function of the
probe loop result. -/
theorem movePreviewCompress_previewItem (x y : Int) (st : List LayoutItem)
    (preview : LayoutItem) :
    (movePreviewWithCollisionsWithCompress x y st preview).previewItem =
      { preview with
        x := x,
        y := if (compressProbeLoop preview x y y st).1 < 0 ∨ y = 0 then 0
          else (compressProbeLoop preview x y y st).1 } := by
  unfold movePreviewWithCollisionsWithCompress
  dsimp only
  split <;> split <;> rfl

/-- A probe row with collisions dispatches to the hit handler. -/
theorem compressProbeRows_hit (preview : LayoutItem) (x origY : Int)
    (st : List LayoutItem) (n : Nat)
    (hcoll : getCollisions { preview with x := x, y := (n : Int) } st ≠ []) :
    compressProbeRows preview x origY st n =
      compressProbeHit preview x origY st (n : Int) := by
  cases n with
  | zero =>
      rw [show ((0 : Nat) : Int) = (0 : Int) from rfl] at hcoll ⊢
      conv_lhs => unfold compressProbeRows
      rw [if_neg (by simp only [List.isEmpty_iff]; exact hcoll)]
  | succ m =>
      rw [show ((m + 1 : Nat) : Int) = ((m : Int) + 1) from by push_cast; rfl] at hcoll ⊢
      conv_lhs => unfold compressProbeRows
      rw [if_neg (by simp only [List.isEmpty_iff]; exact hcoll)]

/-- Colliders are drawn from the scanned list. -/
theorem getCollisions_subset (candidate : LayoutItem) (items : List LayoutItem) :
    ∀ c ∈ getCollisions candidate items, c ∈ items := by
  intro c hc
  exact List.mem_of_mem_filter hc

/-- C7 (amended): probing scans collision-free rows downward and, if every
row from the requested y down to 0 is free, the candidate settles at row 0;
but at the first row with collisions probing STOPS: when no collider there
passes the below-centre test the candidate reverts to the preview's
current y instead of continuing to decrement (lines 322-325 reset newY to
previewItem.y and break). -/
theorem compress_probe_stops (x y : Int) (st : List LayoutItem) (preview : LayoutItem) :
    ((∀ r : Int, 0 ≤ r → r ≤ y →
        getCollisions { preview with x := x, y := r } st = []) →
      (movePreviewWithCollisionsWithCompress x y st preview).previewItem.y = 0) ∧
    (∀ r : Int, 0 ≤ r → r ≤ y → 0 < y → 0 ≤ preview.y →
      (st.map (fun i => i.id)).Nodup →
      (∀ m : Int, r < m → m ≤ y → getCollisions { preview with x := x, y := m } st = []) →
      getCollisions { preview with x := x, y := r } st ≠ [] →
      (∀ s ∈ getCollisions { preview with x := x, y := r } st,
        2 * y + preview.h < 2 * s.y + s.h) →
      (movePreviewWithCollisionsWithCompress x y st preview).previewItem.y = preview.y) := by
  constructor
  · intro hfree
    rw [movePreviewCompress_previewItem]
    dsimp only
    by_cases hy : y < 0
    · have hloop : compressProbeLoop preview x y y st = (y, st) := by
        unfold compressProbeLoop
        rw [if_pos hy]
      rw [hloop]
      exact if_pos (Or.inl hy)
    · have hloop : compressProbeLoop preview x y y st = (-1, st) := by
        unfold compressProbeLoop
        rw [if_neg hy]
        refine compressProbeRows_all_free preview x y st y.toNat ?_
        intro m hm
        refine hfree (m : Int) (Int.natCast_nonneg m) ?_
        omega
      rw [hloop]
      exact if_pos (Or.inl (by norm_num))
  · intro r hr0 hry hy hpy hnd hfree hcoll hnone
    rw [movePreviewCompress_previewItem]
    dsimp only
    have hyn : ¬ y < 0 := by omega
    have hcast : ((r.toNat : Nat) : Int) = r := Int.toNat_of_nonneg hr0
    have hcoll' : getCollisions { preview with x := x, y := ((r.toNat : Nat) : Int) } st ≠ [] := by
      rw [hcast]
      exact hcoll
    have hpass : ((sortDescByY (getCollisions { preview with x := x, y := r } st)).map
          (fun i => i.id)).foldl
        (compressMovedStep preview y preview.id
          ((sortDescByY (getCollisions { preview with x := x, y := r } st)).map
            (fun i => i.id))) (false, r, st) = (false, r, st) := by
      refine compressMovedPass_no_fire preview y preview.id _ _ r st ?_
      intro i hi it hf
      rw [List.mem_map] at hi
      obtain ⟨s, hs, rfl⟩ := hi
      rw [mem_sortDescByY] at hs
      have hsst : s ∈ st := getCollisions_subset _ _ s hs
      obtain ⟨hit, hitid⟩ := findById_some hf
      rw [eq_of_mem_of_id_eq hnd hit hsst hitid]
      exact hnone s hs
    have hloop : compressProbeLoop preview x y y st = (preview.y, st) := by
      unfold compressProbeLoop
      rw [if_neg hyn]
      rw [compressProbeRows_until preview x y st r.toNat y.toNat (by omega) ?_]
      · rw [compressProbeRows_hit preview x y st r.toNat hcoll']
        unfold compressProbeHit compressMovedPass
        dsimp only
        rw [hcast]
        rw [hpass]
        rfl
      · intro m hm1 hm2
        refine hfree (m : Int) (by omega) (by omega)
    rw [hloop]
    exact if_neg (by push_neg; exact ⟨by omega, by omega⟩)

/-- The preview item of the probe counterexample. -/
def p7 : LayoutItem := mkItem 20 0 7 1 1

/-- Its grid: the preview's authoritative copy plus one tall collider. -/
def s7 : List LayoutItem := [mkItem 20 0 7 1 1, mkItem 21 0 2 1 4]

/-- C7 (counterexample): at requested row 2 there are collisions, no
collider passes the below-centre test, and rows 1 and 0 are free — by the
claim probing should keep decrementing and settle at row 0, but the code
reverts to the preview's current row 7 and stops. -/
theorem compress_probe_decrement_refuted :
    getCollisions { p7 with x := 0, y := 2 } s7 ≠ [] ∧
      (getCollisions { p7 with x := 0, y := 2 } s7).all
          (fun s => decide (2 * 2 + p7.h < 2 * s.y + s.h)) = true ∧
      getCollisions { p7 with x := 0, y := 1 } s7 = [] ∧
      getCollisions { p7 with x := 0, y := 0 } s7 = [] ∧
      (movePreviewWithCollisionsWithCompress 0 2 s7 p7).previewItem.y = 7 ∧
      (7 : Int) ≠ 0 := by
  refine ⟨by decide, by decide, by decide, by decide, by decide, by decide⟩

/-- Witness for compress_probe_stops at the p7 scenario (first colliding
probe row r = 2 = requested row; the free-row hypothesis holds vacuously). -/
theorem compress_probe_stops_witness :
    (movePreviewWithCollisionsWithCompress 0 2 s7 p7).previewItem.y = p7.y :=
  (compress_probe_stops 0 2 s7 p7).2 2 (by decide) (by decide) (by decide) (by decide)
    (by decide)
    (fun m h1 h2 => absurd (lt_of_lt_of_le h1 h2) (lt_irrefl 2))
    (by decide) (by decide)

/-- Membership through ascending insertion. -/
theorem mem_insertAscByY {a x : LayoutItem} :
    ∀ {l : List LayoutItem}, a ∈ insertAscByY x l ↔ a = x ∨ a ∈ l := by
  intro l
  induction l with
  | nil => simp [insertAscByY]
  | cons b rest ih =>
      unfold insertAscByY
      by_cases h : x.y < b.y
      · rw [if_pos h]
        simp [List.mem_cons]
      · rw [if_neg h]
        rw [List.mem_cons, ih, List.mem_cons]
        tauto

/-- Membership through the ascending sort. -/
theorem mem_sortAscByY {a : LayoutItem} {l : List LayoutItem} :
    a ∈ sortAscByY l ↔ a ∈ l := by
  suffices h : ∀ (l acc : List LayoutItem),
      (a ∈ l.foldl (fun acc it => insertAscByY it acc) acc ↔ a ∈ acc ∨ a ∈ l) by
    unfold sortAscByY
    rw [h l []]
    simp
  intro l
  induction l with
  | nil => intro acc; simp
  | cons b rest ih =>
      intro acc
      rw [List.foldl_cons, ih, mem_insertAscByY, List.mem_cons]
      tauto

/-- The downward scan never goes below -1. -/
theorem descendRows_ge (cur : LayoutItem) (acc : List LayoutItem) :
    ∀ n : Nat, -1 ≤ descendRows cur acc n := by
  intro n
  induction n with
  | zero =>
      unfold descendRows
      split
      · norm_num
      · norm_num
  | succ n ih =>
      unfold descendRows
      split
      · omega
      · exact ih

/-- The while loop of lines 622-627/635-640 never returns less than -1
when started at or above -1. -/
theorem descendWhileFree_ge (cur : LayoutItem) (acc : List LayoutItem)
    (n : Int) (hn : -1 ≤ n) : -1 ≤ descendWhileFree cur acc n := by
  unfold descendWhileFree
  split
  · exact hn
  · exact descendRows_ge cur acc n.toNat

/-- The compress reduce keeps every settled item at a non-negative row. -/
theorem compressStep_fold_nonneg (preview : LayoutItem)
    (hpy : 0 ≤ preview.y) (hph : 0 ≤ preview.h) :
    ∀ (l acc : List LayoutItem),
      (∀ a ∈ acc, 0 ≤ a.y) →
      (∀ c ∈ l, 0 ≤ c.y ∧ 0 ≤ c.h) →
      (∀ a ∈ l.foldl (compressStep preview) acc, 0 ≤ a.y) := by
  intro l
  induction l with
  | nil => intro acc hacc _ a ha; exact hacc a ha
  | cons c rest ih =>
      intro acc hacc hl
      rw [List.foldl_cons]
      refine ih (compressStep preview acc c) ?_ (fun d hd => hl d (List.mem_cons_of_mem c hd))
      intro a ha
      unfold compressStep at ha
      have hc := hl c (List.mem_cons_self c rest)
      by_cases h1 : c.id = preview.id
      · rw [if_pos h1] at ha
        exact hacc a ha
      · rw [if_neg h1] at ha
        by_cases h2 : preview.y < c.y + c.h
        · rw [if_pos h2] at ha
          rcases List.mem_append.mp ha with hmem | hmem
          · exact hacc a hmem
          · rw [List.mem_singleton] at hmem
            subst hmem
            dsimp only
            have hmaxY : -1 ≤ (if c.y ≥ preview.y then c.y + preview.h + 1
                else preview.y + c.h + 1) := by
              split <;> omega
            have := descendWhileFree_ge c acc _ hmaxY
            omega
        · rw [if_neg h2] at ha
          by_cases h3 : descendWhileFree c acc c.y < c.y ∧ 0 < descendWhileFree c acc c.y
          · rw [if_pos h3] at ha
            rcases List.mem_append.mp ha with hmem | hmem
            · exact hacc a hmem
            · rw [List.mem_singleton] at hmem
              subst hmem
              dsimp only
              omega
          · rw [if_neg h3] at ha
            rcases List.mem_append.mp ha with hmem | hmem
            · exact hacc a hmem
            · rw [List.mem_singleton] at hmem
              subst hmem
              exact hc.1

/-- One sibling-shift iteration: non-negative rows are preserved (the
guard item.y - previewItem.h >= 0 protects the only mutation), and the id
list is unchanged. -/
theorem shiftSiblingsUp_nonneg (previewH : Int) (pid : Nat) :
    ∀ (ids : List Nat) (st : List LayoutItem),
      (st.map (fun i => i.id)).Nodup →
      (∀ i ∈ st, 0 ≤ i.y) →
      (∀ i ∈ shiftSiblingsUp previewH pid ids st, 0 ≤ i.y) := by
  intro ids
  induction ids with
  | nil => intro st _ h i hi; exact h i hi
  | cons j rest ih =>
      intro st hnd h
      unfold shiftSiblingsUp
      rw [List.foldl_cons]
      cases hf : findById st j with
      | none =>
          exact ih st hnd h
      | some it =>
          dsimp only
          by_cases hg : (!hasCollisions { it with y := it.y - previewH }
              (st.filter (fun a => decide (a.id ≠ pid))) &&
              decide (it.y - previewH ≥ 0)) = true
          · rw [if_pos hg]
            obtain ⟨hit, hitid⟩ := findById_some hf
            have hguard : 0 ≤ it.y - previewH := by
              rw [Bool.and_eq_true] at hg
              have := hg.2
              rw [decide_eq_true_eq] at this
              omega
            have hids : (st.map (fun a =>
                if a.id = j then { a with y := a.y - previewH } else a)).map
                  (fun i => i.id) = st.map (fun i => i.id) :=
              map_update_ids st _ (fun a => by by_cases hid : a.id = j <;> simp [hid])
            refine ih _ ?_ ?_
            · rw [hids]
              exact hnd
            · intro a ha
              rw [List.mem_map] at ha
              obtain ⟨a0, ha0, rfl⟩ := ha
              by_cases hid : a0.id = j
              · rw [if_pos hid]
                dsimp only
                rw [eq_of_mem_of_id_eq hnd ha0 hit (by rw [hid, hitid])]
                omega
              · rw [if_neg hid]
                exact h a0 ha0
          · rw [if_neg hg]
            exact ih st hnd h

/-- compressItems writes only settled rows, which are non-negative. -/
theorem compressItems_nonneg (preview : LayoutItem) (st : List LayoutItem)
    (hpy : 0 ≤ preview.y) (hph : 0 ≤ preview.h)
    (h : ∀ i ∈ st, 0 ≤ i.y ∧ 0 ≤ i.h) :
    ∀ i ∈ compressItems preview st, 0 ≤ i.y := by
  intro i hi
  unfold compressItems at hi
  dsimp only at hi
  rw [List.mem_map] at hi
  obtain ⟨i0, hi0, rfl⟩ := hi
  by_cases h1 : i0.id = preview.id
  · rw [if_pos h1]
    exact (h i0 hi0).1
  · rw [if_neg h1]
    cases hf : findById (List.foldl (compressStep preview) [preview] (sortAscByY st))
        i0.id with
    | none => exact (h i0 hi0).1
    | some a =>
        dsimp only
        obtain ⟨hmem, _⟩ := findById_some hf
        exact compressStep_fold_nonneg preview hpy hph (sortAscByY st) [preview]
          (fun b hb => by rw [List.mem_singleton] at hb; rw [hb]; exact hpy)
          (fun c hc => h c (mem_sortAscByY.mp hc)) a hmem

/-- C9: both compress mutation paths preserve non-negative rows: the
move-time sibling shift (guarded by item.y - previewItem.h >= 0, lines
310-318) and the y assignments of the global compaction pass (newY+1 with
newY ≥ -1 in the first branch, newY+1 with newY > 0 in the second), given
non-negative starting rows (and, for the pass, non-negative preview row
and heights). -/
theorem compress_paths_preserve_nonneg (previewH : Int) (pid : Nat)
    (ids : List Nat) (st : List LayoutItem) (preview : LayoutItem)
    (st2 : List LayoutItem) :
    ((st.map (fun i => i.id)).Nodup → (∀ i ∈ st, 0 ≤ i.y) →
      ∀ i ∈ shiftSiblingsUp previewH pid ids st, 0 ≤ i.y) ∧
    (0 ≤ preview.y → 0 ≤ preview.h → (∀ i ∈ st2, 0 ≤ i.y ∧ 0 ≤ i.h) →
      ∀ i ∈ compressItems preview st2, 0 ≤ i.y) :=
  ⟨fun hnd h => shiftSiblingsUp_nonneg previewH pid ids st hnd h,
   fun hpy hph h => compressItems_nonneg preview st2 hpy hph h⟩

/-- Witness for compress_paths_preserve_nonneg at the s7 layout: the
shifted sibling lands at row 1 and the compacted item keeps row 2, both
non-negative. -/
theorem compress_paths_preserve_nonneg_witness :
    0 ≤ (mkItem 21 0 1 1 4).y ∧ 0 ≤ (mkItem 21 0 2 1 4).y :=
  ⟨(compress_paths_preserve_nonneg 1 20 [21] s7 p7 s7).1 (by decide) (by decide)
      (mkItem 21 0 1 1 4) (by decide),
   (compress_paths_preserve_nonneg 1 20 [21] s7 p7 s7).2 (by decide) (by decide)
      (by decide) (mkItem 21 0 2 1 4) (by decide)⟩

/-- A pairwise non-overlapping four-item layout (drag start state). -/
def c8start : List LayoutItem :=
  [mkItem 10 0 7 1 4, mkItem 11 1 4 1 4, mkItem 12 1 8 1 4, mkItem 13 0 2 1 4]

/-- The preview settled by the drag sample with candidate column 1 row 2. -/
def c8preview : LayoutItem := mkItem 10 1 7 1 4

/-- The item list committed by that sample. -/
def c8state : List LayoutItem :=
  [mkItem 10 1 7 1 4, mkItem 11 1 11 1 4, mkItem 12 1 14 1 4, mkItem 13 0 2 1 4]

/-- C8: the global compaction pass is NOT idempotent.  From the pairwise
non-overlapping c8start, one committed compress move sample (a state the
code itself reaches) commits c8state; the pass run twice on the same item
set moves item 12 a second time (row 14 to 15), because the first pass
assigned maxY+1 (line 628) without re-checking collisions and left items
11 and 12 overlapping. -/
theorem compaction_not_idempotent :
    pairwiseNoOverlap c8start ∧
      movePreviewWithCollisionsWithCompress 1 2 c8start (mkItem 10 0 7 1 4) =
        { items := c8state, previewItem := c8preview } ∧
      ¬ pairwiseNoOverlap (compressItems c8preview c8start) ∧
      (compressItems c8preview (compressItems c8preview c8start)).map
          (fun i => (i.id, i.x, i.y)) ≠
        (compressItems c8preview c8start).map (fun i => (i.id, i.x, i.y)) :=
  ⟨by decide, by decide, by decide, by decide⟩
